import Mathlib

/-!
Verification of the library-management-service repository (Go).

The development shallowly embeds the persistent state (the three tables
created in internal/database/db.go SetupSchema), the repository layer
(internal/repository: UserRepository, BookRepository), the gRPC façade
(internal/service LibraryService) and the REST adapter (internal/server
RESTServer) as pure Lean functions over an explicit database state.

Modelling conventions:
  - generated UUID identifiers become Nats drawn from per-table counters;
  - timestamps and the 14-day due-date offset become Nats (`addDays`);
  - Go errors become `Except String` with the code's fmt.Errorf strings;
  - each statement of the non-transactional borrow/return sequences can be
    made to fail through an explicit fault record, mirroring the fact that
    every Pool call in the Go code has an error branch;
  - the schema constraints of db.go (users.email UNIQUE, books.isbn UNIQUE,
    borrows.user_id/book_id REFERENCES) are part of the statement
    semantics: an INSERT that violates them fails.
-/

namespace LibraryMgmt

/-- The bcrypt hash of a password. Credential hashing is a single external
library call (golang.org/x/crypto/bcrypt); it is modelled as an ideal salted
one-way hash: comparison succeeds exactly against the hashed password. -/
structure BHash where
  ofPassword : String
deriving DecidableEq, Repr

/-- Model of bcrypt.GenerateFromPassword. -/
def bcryptGenerate (password : String) : BHash := ⟨password⟩

/-- Model of bcrypt.CompareHashAndPassword: true iff the hash was generated
from this password. -/
def bcryptCompare (h : BHash) (password : String) : Bool :=
  h.ofPassword == password

/-- A row of the users table (db.go: id, name, email, password_hash). -/
structure UserRow where
  id : Nat
  name : String
  email : String
  passwordHash : BHash
deriving DecidableEq, Repr

/-- A row of the books table (db.go: id, title, author, isbn, available). -/
structure BookRow where
  id : Nat
  title : String
  author : String
  isbn : String
  available : Bool
deriving DecidableEq, Repr

/-- A row of the borrows table (db.go: id, user_id, book_id, due_date,
return_date; return_date is nullable). -/
structure BorrowRow where
  id : Nat
  userId : Nat
  bookId : Nat
  dueDate : Nat
  returnDate : Option Nat
deriving DecidableEq, Repr

/-- The persistent state: the three tables plus the id generators standing
for the DEFAULT gen_random_uuid() columns. -/
structure DBState where
  users : List UserRow
  books : List BookRow
  borrows : List BorrowRow
  nextUserId : Nat
  nextBookId : Nat
  nextBorrowId : Nat
deriving DecidableEq, Repr

/-- The freshly bootstrapped database: three empty tables. -/
def initState : DBState := ⟨[], [], [], 0, 0, 0⟩

/-- QueryRow SELECT ... FROM books WHERE id = $1 (first matching row). -/
def findBook (st : DBState) (id : Nat) : Option BookRow :=
  st.books.find? (fun bk => bk.id == id)

/-- QueryRow SELECT ... FROM users WHERE email = $1 (first matching row). -/
def findUserByEmail (st : DBState) (email : String) : Option UserRow :=
  st.users.find? (fun u => u.email == email)

/-- QueryRow SELECT ... FROM borrows WHERE id = $1 (first matching row). -/
def findBorrow (st : DBState) (id : Nat) : Option BorrowRow :=
  st.borrows.find? (fun b => b.id == id)

/-- UPDATE books SET available = $v WHERE id = $1. Exec semantics: updates
every matching row, succeeds even when none matches. -/
def updateBookAvail (st : DBState) (bookId : Nat) (v : Bool) : DBState :=
  { st with
    books := st.books.map fun bk =>
      if bk.id == bookId then { bk with available := v } else bk }

/-- UPDATE borrows SET return_date = NOW() WHERE id = $1. -/
def stampReturn (st : DBState) (borrowId : Nat) (now : Nat) : DBState :=
  { st with
    borrows := st.borrows.map fun b =>
      if b.id == borrowId then { b with returnDate := some now } else b }

/-- Model of time.Time.AddDate(0, 0, d): shift a timestamp by d days. -/
def addDays (t : Nat) (d : Nat) : Nat := t + d

/-- The view of a user returned outward (proto User: id, name, email; the
password hash is never returned). -/
structure UserView where
  id : Nat
  name : String
  email : String
deriving DecidableEq, Repr

/-- UserRepository.Create: bcrypt-hash the password, INSERT INTO users
RETURNING id, name, email. The INSERT fails on the schema's UNIQUE email
constraint; the error is wrapped as in the Go code. -/
def UserRepository.Create (st : DBState) (name email password : String) :
    Except String (UserView × DBState) :=
  let hash := bcryptGenerate password
  if st.users.any (fun u => u.email == email) then
    .error "failed to create user: duplicate key violates unique constraint"
  else
    let row : UserRow := ⟨st.nextUserId, name, email, hash⟩
    .ok (⟨row.id, name, email⟩,
      { st with users := st.users ++ [row], nextUserId := st.nextUserId + 1 })

/-- UserRepository.VerifyCredentials: SELECT by email; "invalid credentials"
when no row (pgx.ErrNoRows) or when the bcrypt comparison fails. -/
def UserRepository.VerifyCredentials (st : DBState) (email password : String) :
    Except String UserView :=
  match findUserByEmail st email with
  | none => .error "invalid credentials"
  | some u =>
    if bcryptCompare u.passwordHash password then .ok ⟨u.id, u.name, u.email⟩
    else .error "invalid credentials"

/-- The book fields supplied by a create request (proto Book without id). -/
structure BookSpec where
  title : String
  author : String
  isbn : String
  available : Bool
deriving DecidableEq, Repr

/-- BookRepository.Create: INSERT INTO books RETURNING the row. The INSERT
fails on the schema's UNIQUE isbn constraint (the Go code always supplies a
string value for isbn, so two equal isbn strings conflict). -/
def BookRepository.Create (st : DBState) (b : BookSpec) :
    Except String (BookRow × DBState) :=
  if st.books.any (fun bk => bk.isbn == b.isbn) then
    .error "failed to create book: duplicate key violates unique constraint"
  else
    let row : BookRow := ⟨st.nextBookId, b.title, b.author, b.isbn, b.available⟩
    .ok (row,
      { st with books := st.books ++ [row], nextBookId := st.nextBookId + 1 })

/-- BookRepository.GetByID: SELECT by id, "book not found" on ErrNoRows. -/
def BookRepository.GetByID (st : DBState) (id : Nat) : Except String BookRow :=
  match findBook st id with
  | none => .error "book not found"
  | some bk => .ok bk

/-- BookRepository.List: SELECT ... ORDER BY title LIMIT $1 OFFSET $2. -/
def BookRepository.List (st : DBState) (limit : Int) (offset : Int) :
    List BookRow :=
  ((st.books.mergeSort (fun a b => a.title ≤ b.title)).drop offset.toNat).take
    limit.toNat

/-- Injected failures for the statements of BookRepository.BorrowBook: each
Pool call of the Go function has an error branch; a `some e` makes the
corresponding statement fail with message e. -/
structure Faults where
  checkFail : Option String
  updateFail : Option String
  insertFail : Option String
  revertFail : Option String
deriving DecidableEq, Repr

/-- The run in which every statement succeeds. -/
def noFaults : Faults := ⟨none, none, none, none⟩

/-- Outcome of BookRepository.BorrowBook: the Go return value (borrow id or
error), the state left behind, and how many compensating
UPDATE books SET available = true statements were attempted. -/
structure BorrowOutcome where
  res : Except String Nat
  st : DBState
  revertAttempts : Nat
deriving Repr

/-- Message modelling the Postgres error for the borrows INSERT when
user_id violates borrows.user_id REFERENCES users(id) (db.go schema). -/
def fkViolationMsg : String := "violates foreign key constraint"

/-- INSERT INTO borrows (user_id, book_id, due_date) RETURNING id. Fails
when the referenced user or book does not exist (the REFERENCES constraints
of the borrows table). -/
def insertBorrow (st : DBState) (userId bookId dueDate : Nat) :
    Option (Nat × DBState) :=
  if st.users.any (fun u => u.id == userId) && st.books.any (fun bk => bk.id == bookId) then
    some (st.nextBorrowId,
      { st with
        borrows := st.borrows ++ [⟨st.nextBorrowId, userId, bookId, dueDate, none⟩],
        nextBorrowId := st.nextBorrowId + 1 })
  else none

/-- BookRepository.BorrowBook: check availability, flip the flag to false,
insert the ledger row; on insert failure attempt one compensating update
back to true (best-effort: its own failure is only logged) and return the
original insert error. -/
def BookRepository.BorrowBook (st : DBState) (userId bookId dueDate : Nat)
    (f : Faults) : BorrowOutcome :=
  match f.checkFail with
  | some e => ⟨.error ("failed to check book availability: " ++ e), st, 0⟩
  | none =>
    match findBook st bookId with
    | none => ⟨.error "failed to check book availability: no rows in result set", st, 0⟩
    | some bk =>
      if !bk.available then ⟨.error "book is not available", st, 0⟩
      else
        match f.updateFail with
        | some e => ⟨.error ("failed to update book availability: " ++ e), st, 0⟩
        | none =>
          let st1 := updateBookAvail st bookId false
          let failWith := fun (e : String) =>
            match f.revertFail with
            | some _ => ⟨.error ("failed to create borrow record: " ++ e), st1, 1⟩
            | none =>
              ⟨.error ("failed to create borrow record: " ++ e),
                updateBookAvail st1 bookId true, 1⟩
          match f.insertFail with
          | some e => failWith e
          | none =>
            match insertBorrow st1 userId bookId dueDate with
            | none => failWith fkViolationMsg
            | some (bid, st2) => ⟨.ok bid, st2, 0⟩

/-- Injected failures for the statements of BookRepository.ReturnBook. -/
structure RetFaults where
  lookupFail : Option String
  updateFail : Option String
  stampFail : Option String
  revertFail : Option String
deriving DecidableEq, Repr

/-- The return run in which every statement succeeds. -/
def noRetFaults : RetFaults := ⟨none, none, none, none⟩

/-- Outcome of BookRepository.ReturnBook. -/
structure ReturnOutcome where
  res : Except String Unit
  st : DBState
  revertAttempts : Nat
deriving Repr

/-- BookRepository.ReturnBook: look up the borrow's book, mark the book
available, stamp the borrow's return_date with NOW(); on stamp failure
attempt one compensating update of the flag back to false (best-effort)
and return the original stamp error. It never checks whether the borrow
was already returned. -/
def BookRepository.ReturnBook (st : DBState) (borrowId : Nat) (now : Nat)
    (f : RetFaults) : ReturnOutcome :=
  match f.lookupFail with
  | some e => ⟨.error ("failed to get borrow: " ++ e), st, 0⟩
  | none =>
    match findBorrow st borrowId with
    | none => ⟨.error "failed to get borrow: no rows in result set", st, 0⟩
    | some b =>
      match f.updateFail with
      | some e => ⟨.error ("failed to update book availability: " ++ e), st, 0⟩
      | none =>
        let st1 := updateBookAvail st b.bookId true
        match f.stampFail with
        | some e =>
          match f.revertFail with
          | some _ => ⟨.error ("failed to update borrow record: " ++ e), st1, 1⟩
          | none =>
            ⟨.error ("failed to update borrow record: " ++ e),
              updateBookAvail st1 b.bookId false, 1⟩
        | none => ⟨.ok (), stampReturn st1 borrowId now, 0⟩

/-- The gRPC status codes used by LibraryService. -/
inductive Code where
  | invalidArgument
  | unauthenticated
  | notFound
  | internal
deriving DecidableEq, Repr

/-- A façade failure: gRPC status code plus message. -/
abbrev SvcErr := Code × String

/-- Result of a façade operation: the gRPC response or error, and the
database state afterwards. -/
structure SvcOut (α : Type) where
  res : Except SvcErr α
  st : DBState
deriving Repr

/-- The RegisterUser request (proto: name, email, password). -/
structure RegisterUserRequest where
  name : String
  email : String
  password : String
deriving DecidableEq, Repr

/-- Result of RegisterUser, additionally recording whether the user
repository's Create was invoked. -/
structure RegOut where
  res : Except SvcErr UserView
  st : DBState
  createInvoked : Bool
deriving Repr

/-- Character class [a-zA-Z0-9._%+\-] of the façade's email regex. -/
def isLocalChar (c : Char) : Bool :=
  c.isAlpha || c.isDigit || c == '.' || c == '_' || c == '%' || c == '+' || c == '-'

/-- Character class [a-zA-Z0-9.\-] of the façade's email regex. -/
def isDomainChar (c : Char) : Bool :=
  c.isAlpha || c.isDigit || c == '.' || c == '-'

/-- Split a character list at its first occurrence of sep. -/
def splitFirst (sep : Char) : List Char → Option (List Char × List Char)
  | [] => none
  | c :: cs =>
    if c == sep then some ([], cs)
    else match splitFirst sep cs with
      | some (l, r) => some (c :: l, r)
      | none => none

/-- Match the tail pattern of the regex domain part, [a-zA-Z0-9.\-]*\.[a-zA-Z]{2,}:
at each position either close with a literal dot followed by a TLD of at
least two letters, or consume one more domain character. -/
def matchDomTail : List Char → Bool
  | [] => false
  | c :: cs =>
    (c == '.' && decide (2 ≤ cs.length) && cs.all Char.isAlpha)
    || (isDomainChar c && matchDomTail cs)

/-- Match the regex domain part [a-zA-Z0-9.\-]+\.[a-zA-Z]{2,}. -/
def emailDomainMatch : List Char → Bool
  | [] => false
  | c :: cs => isDomainChar c && matchDomTail cs

/-- The façade's email regex `^[a-zA-Z0-9._%+\-]+@[a-zA-Z0-9.\-]+\.[a-zA-Z]{2,}$`
(service/library_service.go). Both classes exclude the at-sign, so the
regex's at-sign is the string's first one. -/
def emailRegexMatch (s : String) : Bool :=
  match splitFirst '@' s.toList with
  | none => false
  | some (lpart, rest) =>
    !lpart.isEmpty && lpart.all isLocalChar && emailDomainMatch rest

/-- LibraryService.RegisterUser: reject empty fields, a non-matching email,
or a password of fewer than 8 bytes (Go len counts bytes), all with
InvalidArgument, before calling UserRepository.Create; a Create failure is
surfaced as Internal. -/
def LibraryService.RegisterUser (st : DBState) (req : RegisterUserRequest) :
    RegOut :=
  if req.name == "" || req.email == "" || req.password == "" then
    ⟨.error (.invalidArgument, "name, email, and password are required"), st, false⟩
  else if !emailRegexMatch req.email then
    ⟨.error (.invalidArgument, "invalid email format"), st, false⟩
  else if req.password.utf8ByteSize < 8 then
    ⟨.error (.invalidArgument, "password must be at least 8 characters"), st, false⟩
  else
    match UserRepository.Create st req.name req.email req.password with
    | .error e => ⟨.error (.internal, "failed to create user: " ++ e), st, true⟩
    | .ok (u, st') => ⟨.ok u, st', true⟩

/-- The LoginUser request (proto: email, password). -/
structure LoginUserRequest where
  email : String
  password : String
deriving DecidableEq, Repr

/-- The LoginUser response: the user and the placeholder token. -/
structure LoginUserResponse where
  user : UserView
  token : String
deriving DecidableEq, Repr

/-- LibraryService.LoginUser: reject empty fields with InvalidArgument; any
VerifyCredentials failure becomes Unauthenticated "invalid credentials"; on
success the constant placeholder token is returned. -/
def LibraryService.LoginUser (st : DBState) (req : LoginUserRequest) :
    SvcOut LoginUserResponse :=
  if req.email == "" || req.password == "" then
    ⟨.error (.invalidArgument, "email and password are required"), st⟩
  else
    match UserRepository.VerifyCredentials st req.email req.password with
    | .error _ => ⟨.error (.unauthenticated, "invalid credentials"), st⟩
    | .ok u => ⟨.ok ⟨u, "sample-jwt-token"⟩, st⟩

/-- The CreateBook request: the book message is itself optional (req.Book
may be nil). -/
structure CreateBookRequest where
  book : Option BookSpec
deriving DecidableEq, Repr

/-- LibraryService.CreateBook: reject a nil book or empty title/author with
InvalidArgument; a repository failure is Internal. -/
def LibraryService.CreateBook (st : DBState) (req : CreateBookRequest) :
    SvcOut BookRow :=
  match req.book with
  | none => ⟨.error (.invalidArgument, "book is required"), st⟩
  | some b =>
    if b.title == "" || b.author == "" then
      ⟨.error (.invalidArgument, "title and author are required"), st⟩
    else
      match BookRepository.Create st b with
      | .error e => ⟨.error (.internal, "failed to create book: " ++ e), st⟩
      | .ok (row, st') => ⟨.ok row, st'⟩

/-- A request identifier field: proto string ids are "" when absent, so an
id field is modelled as an optional Nat (none standing for ""). -/
abbrev ReqId := Option Nat

/-- LibraryService.GetBook: reject an empty id with InvalidArgument; a
repository failure becomes NotFound. -/
def LibraryService.GetBook (st : DBState) (id : ReqId) : SvcOut BookRow :=
  match id with
  | none => ⟨.error (.invalidArgument, "book id is required"), st⟩
  | some i =>
    match BookRepository.GetByID st i with
    | .error e => ⟨.error (.notFound, "book not found: " ++ e), st⟩
    | .ok bk => ⟨.ok bk, st⟩

/-- LibraryService.ListBooks: page size defaults to 10 unless the request
carries a positive one; offset is always 0. -/
def LibraryService.ListBooks (st : DBState) (pageSize : Int) :
    SvcOut (List BookRow) :=
  let ps : Int := if pageSize > 0 then pageSize else 10
  ⟨.ok (BookRepository.List st ps 0), st⟩

/-- The BorrowBook request (proto: user_id, book_id as strings). -/
structure BorrowBookRequest where
  userId : ReqId
  bookId : ReqId
deriving DecidableEq, Repr

/-- The BorrowBook response: borrow id and the formatted due date. -/
structure BorrowBookResponse where
  borrowId : Nat
  dueDate : Nat
deriving DecidableEq, Repr

/-- LibraryService.BorrowBook: reject empty ids with InvalidArgument; the
due date is now plus 14 days; any repository failure becomes Internal. -/
def LibraryService.BorrowBook (st : DBState) (req : BorrowBookRequest)
    (now : Nat) (f : Faults) : SvcOut BorrowBookResponse :=
  match req.userId, req.bookId with
  | some u, some b =>
    let dueDate := addDays now 14
    let out := BookRepository.BorrowBook st u b dueDate f
    match out.res with
    | .error e => ⟨.error (.internal, "failed to borrow book: " ++ e), out.st⟩
    | .ok bid => ⟨.ok ⟨bid, dueDate⟩, out.st⟩
  | _, _ => ⟨.error (.invalidArgument, "user id and book id are required"), st⟩

/-- LibraryService.ReturnBook: reject an empty borrow id with
InvalidArgument; any repository failure becomes Internal; success carries
success = true. -/
def LibraryService.ReturnBook (st : DBState) (borrowId : ReqId) (now : Nat)
    (f : RetFaults) : SvcOut Bool :=
  match borrowId with
  | none => ⟨.error (.invalidArgument, "borrow id is required"), st⟩
  | some bid =>
    let out := BookRepository.ReturnBook st bid now f
    match out.res with
    | .error e => ⟨.error (.internal, "failed to return book: " ++ e), out.st⟩
    | .ok _ => ⟨.ok true, out.st⟩

/-- The CheckBookAvailability response: the flag and its classification
into the literal strings Available and Borrowed. -/
structure CheckAvailResponse where
  available : Bool
  statusMsg : String
deriving DecidableEq, Repr

/-- LibraryService.CheckBookAvailability: reject an empty id with
InvalidArgument; a repository failure becomes NotFound; otherwise classify
the flag. -/
def LibraryService.CheckBookAvailability (st : DBState) (bookId : ReqId) :
    SvcOut CheckAvailResponse :=
  match bookId with
  | none => ⟨.error (.invalidArgument, "book id is required"), st⟩
  | some i =>
    match BookRepository.GetByID st i with
    | .error e => ⟨.error (.notFound, "book not found: " ++ e), st⟩
    | .ok bk => ⟨.ok ⟨bk.available, if bk.available then "Available" else "Borrowed"⟩, st⟩

/-! REST adapter (internal/server rest_server.go). Each handler first binds
the JSON body (a body of none models a ShouldBindJSON failure, answered
with 400) and then maps the façade result to a fixed HTTP status. -/

/-- HTTP status plus resulting state of a REST handler. -/
structure HttpOut where
  status : Nat
  st : DBState
deriving Repr

/-- RESTServer.registerUser: 400 on bind failure, 500 on any service error,
201 on success. -/
def RESTServer.registerUser (st : DBState) (body : Option RegisterUserRequest) :
    HttpOut :=
  match body with
  | none => ⟨400, st⟩
  | some req =>
    let out := LibraryService.RegisterUser st req
    match out.res with
    | .error _ => ⟨500, out.st⟩
    | .ok _ => ⟨201, out.st⟩

/-- RESTServer.loginUser: 400 on bind failure, 401 on any service error,
200 on success. -/
def RESTServer.loginUser (st : DBState) (body : Option LoginUserRequest) :
    HttpOut :=
  match body with
  | none => ⟨400, st⟩
  | some req =>
    let out := LibraryService.LoginUser st req
    match out.res with
    | .error _ => ⟨401, out.st⟩
    | .ok _ => ⟨200, out.st⟩

/-- RESTServer.createBook: 400 on bind failure, 500 on any service error,
201 on success. The handler always passes a (possibly zero-valued) book
message, never nil. -/
def RESTServer.createBook (st : DBState) (body : Option BookSpec) : HttpOut :=
  match body with
  | none => ⟨400, st⟩
  | some b =>
    let out := LibraryService.CreateBook st ⟨some b⟩
    match out.res with
    | .error _ => ⟨500, out.st⟩
    | .ok _ => ⟨201, out.st⟩

/-- RESTServer.getBook: 404 on any service error, 200 on success. -/
def RESTServer.getBook (st : DBState) (id : ReqId) : HttpOut :=
  let out := LibraryService.GetBook st id
  match out.res with
  | .error _ => ⟨404, out.st⟩
  | .ok _ => ⟨200, out.st⟩

/-- RESTServer.listBooks: 500 on any service error, 200 on success. -/
def RESTServer.listBooks (st : DBState) (pageSize : Int) : HttpOut :=
  let out := LibraryService.ListBooks st pageSize
  match out.res with
  | .error _ => ⟨500, out.st⟩
  | .ok _ => ⟨200, out.st⟩

/-- RESTServer.borrowBook: 400 on bind failure, 500 on any service error,
200 on success. -/
def RESTServer.borrowBook (st : DBState) (bookId : ReqId)
    (body : Option ReqId) (now : Nat) (f : Faults) : HttpOut :=
  match body with
  | none => ⟨400, st⟩
  | some uid =>
    let out := LibraryService.BorrowBook st ⟨uid, bookId⟩ now f
    match out.res with
    | .error _ => ⟨500, out.st⟩
    | .ok _ => ⟨200, out.st⟩

/-- RESTServer.returnBook: 400 on bind failure, 500 on any service error,
200 on success. -/
def RESTServer.returnBook (st : DBState) (body : Option ReqId) (now : Nat)
    (f : RetFaults) : HttpOut :=
  match body with
  | none => ⟨400, st⟩
  | some bid =>
    let out := LibraryService.ReturnBook st bid now f
    match out.res with
    | .error _ => ⟨500, out.st⟩
    | .ok _ => ⟨200, out.st⟩

/-- RESTServer.checkBookAvailability: 404 when the service error's code is
NotFound, 500 on any other service error, 200 on success. -/
def RESTServer.checkBookAvailability (st : DBState) (bookId : ReqId) : HttpOut :=
  let out := LibraryService.CheckBookAvailability st bookId
  match out.res with
  | .error e => if e.1 = Code.notFound then ⟨404, out.st⟩ else ⟨500, out.st⟩
  | .ok _ => ⟨200, out.st⟩

/-! Sequential façade runs, for the availability invariant. -/

/-- One façade operation with its arguments, as issued by a client. -/
inductive Op where
  | registerUser (req : RegisterUserRequest)
  | loginUser (req : LoginUserRequest)
  | createBook (req : CreateBookRequest)
  | getBook (id : ReqId)
  | listBooks (pageSize : Int)
  | borrowBook (req : BorrowBookRequest) (now : Nat)
  | returnBook (borrowId : ReqId) (now : Nat)
  | checkAvail (bookId : ReqId)
deriving Repr

/-- Run one façade operation to completion (no crash, every statement
succeeds) and keep the resulting state. -/
def applyOp (st : DBState) (op : Op) : DBState :=
  match op with
  | .registerUser req => (LibraryService.RegisterUser st req).st
  | .loginUser req => (LibraryService.LoginUser st req).st
  | .createBook req => (LibraryService.CreateBook st req).st
  | .getBook id => (LibraryService.GetBook st id).st
  | .listBooks ps => (LibraryService.ListBooks st ps).st
  | .borrowBook req now => (LibraryService.BorrowBook st req now noFaults).st
  | .returnBook bid now => (LibraryService.ReturnBook st bid now noRetFaults).st
  | .checkAvail id => (LibraryService.CheckBookAvailability st id).st

/-- The state after a sequence of façade operations from the bootstrapped
empty database. -/
def runOps (ops : List Op) : DBState := ops.foldl applyOp initState

/-- The spec's availability invariant: a book's flag is false exactly when
an open borrow record (null return timestamp) references it. -/
def AvailInv (st : DBState) : Prop :=
  ∀ bk ∈ st.books,
    (bk.available = false ↔ ∃ b ∈ st.borrows, b.bookId = bk.id ∧ b.returnDate = none)

instance (st : DBState) : Decidable (AvailInv st) := by
  unfold AvailInv; infer_instance

/-- The open borrow records (null return timestamp) referencing a book. -/
def openBorrowsFor (st : DBState) (bookId : Nat) : List BorrowRow :=
  st.borrows.filter (fun b => b.bookId == bookId && b.returnDate == none)

/-- Per-book strengthening of the availability invariant: an available book
has no open borrow, an unavailable one exactly one. -/
def BookOk (st : DBState) (bk : BookRow) : Prop :=
  if bk.available then openBorrowsFor st bk.id = []
  else (openBorrowsFor st bk.id).length = 1

/-- Structural well-formedness of a state: generated ids are below their
counters and duplicate-free, and borrow rows reference existing books. -/
def WF (st : DBState) : Prop :=
  (∀ bk ∈ st.books, bk.id < st.nextBookId) ∧
  (st.books.map BookRow.id).Nodup ∧
  (∀ br ∈ st.borrows, br.id < st.nextBorrowId) ∧
  (st.borrows.map BorrowRow.id).Nodup ∧
  (∀ br ∈ st.borrows, ∃ bk ∈ st.books, bk.id = br.bookId)

/-- The induction invariant for sequential façade runs. -/
def StrongInv (st : DBState) : Prop :=
  (∀ bk ∈ st.books, BookOk st bk) ∧ WF st

/-- Side conditions under which an operation keeps the availability
invariant: books are created available, and only not-yet-returned borrows
are returned. -/
def OkOp (st : DBState) (op : Op) : Prop :=
  match op with
  | .createBook req => ∀ b, req.book = some b → b.available = true
  | .returnBook bid _ => ∀ i, bid = some i → ∀ b ∈ st.borrows, b.id = i → b.returnDate = none
  | _ => True

/-- States reachable from the bootstrapped database by sequential façade
operations satisfying the side conditions of OkOp. -/
inductive ReachableG : DBState → Prop where
  | init : ReachableG initState
  | step {st : DBState} (op : Op) : ReachableG st → OkOp st op → ReachableG (applyOp st op)

/-! Helper lemmas. -/

/-- Finding in an append when the left part has no hit. -/
theorem find?_append_of_none {α : Type} (p : α → Bool) (l₁ l₂ : List α)
    (h : l₁.find? p = none) : (l₁ ++ l₂).find? p = l₂.find? p := by
  induction l₁ with
  | nil => rfl
  | cons a l ih =>
    by_cases hp : p a
    · rw [List.find?_cons_of_pos _ hp] at h; cases h
    · rw [List.find?_cons_of_neg _ hp] at h
      rw [List.cons_append, List.find?_cons_of_neg _ hp]
      exact ih h

/-- Books touched by updateBookAvail with the target id carry the new
value. -/
theorem updateBookAvail_sets (st : DBState) (n : Nat) (v : Bool) :
    ∀ bk ∈ (updateBookAvail st n v).books, bk.id = n → bk.available = v := by
  intro bk hmem hid
  unfold updateBookAvail at hmem
  simp only [List.mem_map] at hmem
  obtain ⟨a, _, rfl⟩ := hmem
  by_cases h : a.id = n <;> simp [h] at hid ⊢

/-- Borrow rows touched by stampReturn with the target id carry the new
return timestamp. -/
theorem stampReturn_sets (st : DBState) (bid now : Nat) :
    ∀ br ∈ (stampReturn st bid now).borrows, br.id = bid → br.returnDate = some now := by
  intro br hmem hid
  unfold stampReturn at hmem
  simp only [List.mem_map] at hmem
  obtain ⟨a, _, rfl⟩ := hmem
  by_cases h : a.id = bid <;> simp [h] at hid ⊢

/-! C3. -/

/-- C3: a borrow request on a book whose availability flag is false fails
with the error "book is not available", inserts no borrow record, and
leaves all state unchanged (and attempts no compensating update). -/
theorem borrow_unavailable_rejected (st : DBState) (u b due : Nat) (f : Faults)
    (bk : BookRow) (hcf : f.checkFail = none) (hbk : findBook st b = some bk)
    (hav : bk.available = false) :
    BookRepository.BorrowBook st u b due f
      = ⟨.error "book is not available", st, 0⟩ := by
  simp [BookRepository.BorrowBook, hcf, hbk, hav]

/-- C3 witness: a concrete unavailable book. -/
theorem borrow_unavailable_rejected_witness :
    BookRepository.BorrowBook ⟨[], [⟨0, "t", "a", "i", false⟩], [], 0, 1, 0⟩ 0 0 14 noFaults
      = ⟨.error "book is not available", ⟨[], [⟨0, "t", "a", "i", false⟩], [], 0, 1, 0⟩, 0⟩ :=
  borrow_unavailable_rejected _ 0 0 14 noFaults ⟨0, "t", "a", "i", false⟩ rfl rfl rfl

/-! C4. -/

/-- C4: when the borrow-record insert fails after the flag was flipped to
false, exactly one compensating update is attempted and the original
insert error is returned, whether or not the compensating update itself
fails. -/
theorem borrow_insert_failure_reverts (st : DBState) (u b due : Nat) (f : Faults)
    (bk : BookRow) (e : String) (hcf : f.checkFail = none)
    (hbk : findBook st b = some bk) (hav : bk.available = true)
    (huf : f.updateFail = none) (hif : f.insertFail = some e) :
    (BookRepository.BorrowBook st u b due f).res
        = .error ("failed to create borrow record: " ++ e) ∧
    (BookRepository.BorrowBook st u b due f).revertAttempts = 1 := by
  cases hrf : f.revertFail <;>
    simp [BookRepository.BorrowBook, hcf, hbk, hav, huf, hif, hrf]

/-- C4 witness: a concrete failing insert, once with a succeeding and once
with a failing compensating update. -/
theorem borrow_insert_failure_reverts_witness :
    ((BookRepository.BorrowBook ⟨[], [⟨0, "t", "a", "i", true⟩], [], 0, 1, 0⟩ 0 0 14
        ⟨none, none, some "boom", none⟩).res
      = .error ("failed to create borrow record: " ++ "boom") ∧
    (BookRepository.BorrowBook ⟨[], [⟨0, "t", "a", "i", true⟩], [], 0, 1, 0⟩ 0 0 14
        ⟨none, none, some "boom", none⟩).revertAttempts = 1) ∧
    ((BookRepository.BorrowBook ⟨[], [⟨0, "t", "a", "i", true⟩], [], 0, 1, 0⟩ 0 0 14
        ⟨none, none, some "boom", some "rboom"⟩).res
      = .error ("failed to create borrow record: " ++ "boom") ∧
    (BookRepository.BorrowBook ⟨[], [⟨0, "t", "a", "i", true⟩], [], 0, 1, 0⟩ 0 0 14
        ⟨none, none, some "boom", some "rboom"⟩).revertAttempts = 1) :=
  ⟨borrow_insert_failure_reverts _ 0 0 14 _ ⟨0, "t", "a", "i", true⟩ "boom" rfl rfl rfl rfl rfl,
   borrow_insert_failure_reverts _ 0 0 14 _ ⟨0, "t", "a", "i", true⟩ "boom" rfl rfl rfl rfl rfl⟩

/-! C10. -/

/-- C10: verification with an unknown email and verification with a known
email but non-matching password produce the identical external signal,
the error "invalid credentials"; the two runs are indistinguishable. -/
theorem verify_uniform_failure (st₁ st₂ : DBState) (email password : String)
    (u : UserRow) (h₁ : findUserByEmail st₁ email = none)
    (h₂ : findUserByEmail st₂ email = some u)
    (h₃ : bcryptCompare u.passwordHash password = false) :
    UserRepository.VerifyCredentials st₁ email password = .error "invalid credentials" ∧
    UserRepository.VerifyCredentials st₂ email password = .error "invalid credentials" ∧
    UserRepository.VerifyCredentials st₁ email password
      = UserRepository.VerifyCredentials st₂ email password := by
  refine ⟨?_, ?_, ?_⟩ <;>
    simp [UserRepository.VerifyCredentials, h₁, h₂, h₃]

/-- C10 witness: one state without the email, one with it under another
password. -/
theorem verify_uniform_failure_witness :
    UserRepository.VerifyCredentials ⟨[], [], [], 0, 0, 0⟩ "a@b.co" "password1"
        = .error "invalid credentials" ∧
    UserRepository.VerifyCredentials ⟨[⟨0, "n", "a@b.co", ⟨"other"⟩⟩], [], [], 1, 0, 0⟩
        "a@b.co" "password1" = .error "invalid credentials" ∧
    UserRepository.VerifyCredentials ⟨[], [], [], 0, 0, 0⟩ "a@b.co" "password1"
      = UserRepository.VerifyCredentials ⟨[⟨0, "n", "a@b.co", ⟨"other"⟩⟩], [], [], 1, 0, 0⟩
        "a@b.co" "password1" :=
  verify_uniform_failure _ _ "a@b.co" "password1" ⟨0, "n", "a@b.co", ⟨"other"⟩⟩
    rfl rfl rfl

/-! C5 and C6: the return workflow. -/

/-- On a found borrow, the fault-free ReturnBook succeeds and its final
state is the stamped update. -/
theorem returnBook_found_spec (st : DBState) (bid now : Nat) (b : BorrowRow)
    (hb : findBorrow st bid = some b) :
    (BookRepository.ReturnBook st bid now noRetFaults).res = .ok () ∧
    (BookRepository.ReturnBook st bid now noRetFaults).st
      = stampReturn (updateBookAvail st b.bookId true) bid now := by
  constructor <;> simp [BookRepository.ReturnBook, noRetFaults, hb]

/-- After a fault-free ReturnBook on a found borrow, looking the borrow up
again yields the same row stamped with the return time. -/
theorem findBorrow_after_return (st : DBState) (bid now : Nat) (b : BorrowRow)
    (hb : findBorrow st bid = some b) :
    findBorrow (BookRepository.ReturnBook st bid now noRetFaults).st bid
      = some { b with returnDate := some now } := by
  obtain ⟨-, hst⟩ := returnBook_found_spec st bid now b hb
  rw [hst]
  have hid : b.id = bid := by
    have := List.find?_some hb
    simpa using this
  unfold findBorrow stampReturn updateBookAvail
  rw [List.find?_map]
  have hpred : ((fun br : BorrowRow => br.id == bid) ∘
      (fun br : BorrowRow => if br.id == bid then { br with returnDate := some now } else br))
      = fun br : BorrowRow => br.id == bid := by
    funext br
    by_cases h : br.id = bid <;> simp [h]
  rw [hpred]
  have : findBorrow st bid = some b := hb
  unfold findBorrow at this
  simp only [this, Option.map_some]
  simp [hid]

/-- C5: ReturnBook on an existing borrow record with a null return
timestamp succeeds, marks the referenced book available, and stamps the
record's return timestamp with the current time; on a borrow id with no
matching record it fails and leaves the state unchanged. -/
theorem returnBook_spec :
    (∀ (st : DBState) (bid now : Nat) (b : BorrowRow),
      findBorrow st bid = some b → b.returnDate = none →
      (BookRepository.ReturnBook st bid now noRetFaults).res = .ok () ∧
      (∀ bk ∈ (BookRepository.ReturnBook st bid now noRetFaults).st.books,
        bk.id = b.bookId → bk.available = true) ∧
      (∀ br ∈ (BookRepository.ReturnBook st bid now noRetFaults).st.borrows,
        br.id = bid → br.returnDate = some now)) ∧
    (∀ (st : DBState) (bid now : Nat), findBorrow st bid = none →
      (BookRepository.ReturnBook st bid now noRetFaults).res
          = .error "failed to get borrow: no rows in result set" ∧
      (BookRepository.ReturnBook st bid now noRetFaults).st = st) := by
  constructor
  · intro st bid now b hb _
    obtain ⟨hres, hst⟩ := returnBook_found_spec st bid now b hb
    refine ⟨hres, ?_, ?_⟩
    · rw [hst]
      intro bk hmem hid
      exact updateBookAvail_sets st b.bookId true bk hmem hid
    · rw [hst]
      intro br hmem hid
      exact stampReturn_sets _ bid now br hmem hid
  · intro st bid now hb
    constructor <;> simp [BookRepository.ReturnBook, noRetFaults, hb]

/-- C5 witness: a concrete open borrow, and a concrete unknown borrow id. -/
theorem returnBook_spec_witness :
    ((BookRepository.ReturnBook ⟨[], [⟨0, "t", "a", "i", false⟩],
        [⟨0, 0, 0, 14, none⟩], 0, 1, 1⟩ 0 20 noRetFaults).res = .ok () ∧
     (∀ bk ∈ (BookRepository.ReturnBook ⟨[], [⟨0, "t", "a", "i", false⟩],
        [⟨0, 0, 0, 14, none⟩], 0, 1, 1⟩ 0 20 noRetFaults).st.books,
        bk.id = (0 : Nat) → bk.available = true) ∧
     (∀ br ∈ (BookRepository.ReturnBook ⟨[], [⟨0, "t", "a", "i", false⟩],
        [⟨0, 0, 0, 14, none⟩], 0, 1, 1⟩ 0 20 noRetFaults).st.borrows,
        br.id = (0 : Nat) → br.returnDate = some 20)) ∧
    ((BookRepository.ReturnBook initState 7 20 noRetFaults).res
        = .error "failed to get borrow: no rows in result set" ∧
     (BookRepository.ReturnBook initState 7 20 noRetFaults).st = initState) :=
  ⟨returnBook_spec.1 ⟨[], [⟨0, "t", "a", "i", false⟩], [⟨0, 0, 0, 14, none⟩], 0, 1, 1⟩
      0 20 ⟨0, 0, 0, 14, none⟩ rfl rfl,
   returnBook_spec.2 initState 7 20 rfl⟩

/-- C6: ReturnBook never rejects an already-returned borrow: a second call
with the same borrow id also succeeds, leaves the book's availability flag
true, and re-stamps the record's return timestamp with the new time. -/
theorem returnBook_idempotent (st : DBState) (bid t₁ t₂ : Nat) (b : BorrowRow)
    (hb : findBorrow st bid = some b) :
    (BookRepository.ReturnBook
        (BookRepository.ReturnBook st bid t₁ noRetFaults).st bid t₂ noRetFaults).res
      = .ok () ∧
    (∀ bk ∈ (BookRepository.ReturnBook
        (BookRepository.ReturnBook st bid t₁ noRetFaults).st bid t₂ noRetFaults).st.books,
      bk.id = b.bookId → bk.available = true) ∧
    (∀ br ∈ (BookRepository.ReturnBook
        (BookRepository.ReturnBook st bid t₁ noRetFaults).st bid t₂ noRetFaults).st.borrows,
      br.id = bid → br.returnDate = some t₂) := by
  have hb₁ := findBorrow_after_return st bid t₁ b hb
  obtain ⟨hres, hst⟩ :=
    returnBook_found_spec (BookRepository.ReturnBook st bid t₁ noRetFaults).st bid t₂
      { b with returnDate := some t₁ } hb₁
  refine ⟨hres, ?_, ?_⟩
  · rw [hst]
    intro bk hmem hid
    exact updateBookAvail_sets _ _ true bk hmem hid
  · rw [hst]
    intro br hmem hid
    exact stampReturn_sets _ bid t₂ br hmem hid

/-- C6 witness: returning the same concrete borrow twice. -/
theorem returnBook_idempotent_witness :
    (BookRepository.ReturnBook
        (BookRepository.ReturnBook ⟨[], [⟨0, "t", "a", "i", false⟩],
          [⟨0, 0, 0, 14, none⟩], 0, 1, 1⟩ 0 20 noRetFaults).st 0 30 noRetFaults).res
      = .ok () ∧
    (∀ bk ∈ (BookRepository.ReturnBook
        (BookRepository.ReturnBook ⟨[], [⟨0, "t", "a", "i", false⟩],
          [⟨0, 0, 0, 14, none⟩], 0, 1, 1⟩ 0 20 noRetFaults).st 0 30 noRetFaults).st.books,
      bk.id = (0 : Nat) → bk.available = true) ∧
    (∀ br ∈ (BookRepository.ReturnBook
        (BookRepository.ReturnBook ⟨[], [⟨0, "t", "a", "i", false⟩],
          [⟨0, 0, 0, 14, none⟩], 0, 1, 1⟩ 0 20 noRetFaults).st 0 30 noRetFaults).st.borrows,
      br.id = (0 : Nat) → br.returnDate = some 30) :=
  returnBook_idempotent ⟨[], [⟨0, "t", "a", "i", false⟩], [⟨0, 0, 0, 14, none⟩], 0, 1, 1⟩
    0 20 30 ⟨0, 0, 0, 14, none⟩ rfl

/-! C7: façade validation of RegisterUser. -/

/-- C7: a RegisterUser request with an empty name, email or password, an
email rejected by the façade's regex, or a password shorter than 8 bytes
(Go len counts bytes) fails with InvalidArgument, leaves the state
untouched, and never invokes the user repository's Create. -/
theorem register_invalid_rejected (st : DBState) (req : RegisterUserRequest)
    (h : req.name = "" ∨ req.email = "" ∨ req.password = ""
        ∨ emailRegexMatch req.email = false ∨ req.password.utf8ByteSize < 8) :
    (∃ m, (LibraryService.RegisterUser st req).res = .error (.invalidArgument, m)) ∧
    (LibraryService.RegisterUser st req).st = st ∧
    (LibraryService.RegisterUser st req).createInvoked = false := by
  by_cases h₁ : (req.name == "" || req.email == "" || req.password == "") = true
  · refine ⟨⟨"name, email, and password are required", ?_⟩, ?_, ?_⟩ <;>
      simp [LibraryService.RegisterUser, h₁]
  · by_cases h₂ : emailRegexMatch req.email = true
    · by_cases h₃ : req.password.utf8ByteSize < 8
      · refine ⟨⟨"password must be at least 8 characters", ?_⟩, ?_, ?_⟩ <;>
          simp [LibraryService.RegisterUser, h₁, h₂, h₃]
      · exfalso
        simp only [Bool.or_eq_true, beq_iff_eq, not_or] at h₁
        rcases h with h | h | h | h | h
        · exact h₁.1.1 h
        · exact h₁.1.2 h
        · exact h₁.2 h
        · rw [h₂] at h; cases h
        · exact h₃ h
    · refine ⟨⟨"invalid email format", ?_⟩, ?_, ?_⟩ <;>
        simp [LibraryService.RegisterUser, h₁, h₂]

/-- C7 witness: a concrete too-short password. -/
theorem register_invalid_rejected_witness :
    (∃ m, (LibraryService.RegisterUser initState ⟨"Ann", "a@b.co", "short"⟩).res
        = .error (.invalidArgument, m)) ∧
    (LibraryService.RegisterUser initState ⟨"Ann", "a@b.co", "short"⟩).st = initState ∧
    (LibraryService.RegisterUser initState ⟨"Ann", "a@b.co", "short"⟩).createInvoked
      = false :=
  register_invalid_rejected initState ⟨"Ann", "a@b.co", "short"⟩
    (Or.inr (Or.inr (Or.inr (Or.inr (by decide)))))

/-! C9: register followed by verify. -/

/-- C9: when registration succeeds, verifying the same email and password
against the resulting state succeeds and returns the same id, name and
email that registration returned. -/
theorem register_then_verify (st : DBState) (name email password : String)
    (u : UserView) (st' : DBState)
    (h : UserRepository.Create st name email password = .ok (u, st')) :
    UserRepository.VerifyCredentials st' email password = .ok u := by
  unfold UserRepository.Create at h
  by_cases hdup : (st.users.any fun x => x.email == email) = true
  · rw [if_pos hdup] at h; cases h
  · rw [if_neg hdup] at h
    injection h with h'
    injection h' with h₁ h₂
    subst h₂
    have hnone : st.users.find? (fun x => x.email == email) = none := by
      rw [List.find?_eq_none]
      intro x hx hpx
      apply hdup
      rw [List.any_eq_true]
      exact ⟨x, hx, hpx⟩
    have hfind : findUserByEmail { st with
        users := st.users ++ [⟨st.nextUserId, name, email, bcryptGenerate password⟩],
        nextUserId := st.nextUserId + 1 } email
        = some ⟨st.nextUserId, name, email, bcryptGenerate password⟩ := by
      unfold findUserByEmail
      show (st.users ++ [(⟨st.nextUserId, name, email, bcryptGenerate password⟩ : UserRow)]).find?
          (fun x => x.email == email) = _
      rw [find?_append_of_none _ _ _ hnone]
      simp
    unfold UserRepository.VerifyCredentials
    rw [hfind, ← h₁]
    simp [bcryptCompare, bcryptGenerate]

/-- C9 witness: a concrete successful registration followed by its
verification. -/
theorem register_then_verify_witness :
    UserRepository.VerifyCredentials
        ⟨[⟨0, "Ann", "ann@x.com", ⟨"password123"⟩⟩], [], [], 1, 0, 0⟩
        "ann@x.com" "password123"
      = .ok ⟨0, "Ann", "ann@x.com"⟩ :=
  register_then_verify initState "Ann" "ann@x.com" "password123"
    ⟨0, "Ann", "ann@x.com"⟩
    ⟨[⟨0, "Ann", "ann@x.com", ⟨"password123"⟩⟩], [], [], 1, 0, 0⟩ rfl

/-! C8: REST status mapping. -/

/-- C8 counterexample: a RegisterUser request whose internal failure
category is InvalidArgument is answered by the REST adapter with HTTP 500,
not 400. -/
theorem rest_status_counterexample :
    (LibraryService.RegisterUser initState ⟨"", "a@b.co", "password1"⟩).res
      = .error (Code.invalidArgument, "name, email, and password are required") ∧
    (RESTServer.registerUser initState (some ⟨"", "a@b.co", "password1"⟩)).status
      = 500 :=
  ⟨rfl, rfl⟩

/-- C8 amended: a JSON bind failure is answered with 400, and otherwise
each handler answers a fixed status on any service failure regardless of
its category — registerUser, createBook, borrowBook and returnBook answer
500, loginUser 401, getBook 404 — while only checkBookAvailability branches
on the category, answering 404 exactly when it is NotFound and 500
otherwise. -/
theorem rest_status_mapping :
    (∀ st : DBState, (RESTServer.registerUser st none).status = 400 ∧
        (RESTServer.loginUser st none).status = 400 ∧
        (RESTServer.createBook st none).status = 400 ∧
        (∀ bk now f, (RESTServer.borrowBook st bk none now f).status = 400) ∧
        (∀ now f, (RESTServer.returnBook st none now f).status = 400)) ∧
    (∀ st req e, (LibraryService.RegisterUser st req).res = .error e →
        (RESTServer.registerUser st (some req)).status = 500) ∧
    (∀ st req e, (LibraryService.LoginUser st req).res = .error e →
        (RESTServer.loginUser st (some req)).status = 401) ∧
    (∀ st b e, (LibraryService.CreateBook st ⟨some b⟩).res = .error e →
        (RESTServer.createBook st (some b)).status = 500) ∧
    (∀ st id e, (LibraryService.GetBook st id).res = .error e →
        (RESTServer.getBook st id).status = 404) ∧
    (∀ st bkId uid now f e,
        (LibraryService.BorrowBook st ⟨uid, bkId⟩ now f).res = .error e →
        (RESTServer.borrowBook st bkId (some uid) now f).status = 500) ∧
    (∀ st bid now f e, (LibraryService.ReturnBook st bid now f).res = .error e →
        (RESTServer.returnBook st (some bid) now f).status = 500) ∧
    (∀ st id e, (LibraryService.CheckBookAvailability st id).res = .error e →
        (RESTServer.checkBookAvailability st id).status
          = if e.1 = Code.notFound then 404 else 500) := by
  refine ⟨fun st => ⟨rfl, rfl, rfl, fun _ _ _ => rfl, fun _ _ => rfl⟩,
    ?_, ?_, ?_, ?_, ?_, ?_, ?_⟩
  · intro st req e h; simp [RESTServer.registerUser, h]
  · intro st req e h; simp [RESTServer.loginUser, h]
  · intro st b e h; simp [RESTServer.createBook, h]
  · intro st id e h; simp [RESTServer.getBook, h]
  · intro st bkId uid now f e h; simp [RESTServer.borrowBook, h]
  · intro st bid now f e h; simp [RESTServer.returnBook, h]
  · intro st id e h
    by_cases hnf : e.1 = Code.notFound <;>
      simp [RESTServer.checkBookAvailability, h, hnf]

/-- C8 amended witness: concrete requests through five of the handlers. -/
theorem rest_status_mapping_witness :
    (RESTServer.registerUser initState none).status = 400 ∧
    (RESTServer.registerUser initState (some ⟨"", "a@b.co", "password1"⟩)).status = 500 ∧
    (RESTServer.loginUser initState (some ⟨"a@b.co", "pw"⟩)).status = 401 ∧
    (RESTServer.getBook initState (some 3)).status = 404 ∧
    (RESTServer.checkBookAvailability initState (some 3)).status = 404 := by
  refine ⟨(rest_status_mapping.1 initState).1,
    rest_status_mapping.2.1 initState ⟨"", "a@b.co", "password1"⟩
      (Code.invalidArgument, "name, email, and password are required") rfl,
    rest_status_mapping.2.2.1 initState ⟨"a@b.co", "pw"⟩
      (Code.unauthenticated, "invalid credentials") rfl,
    rest_status_mapping.2.2.2.2.1 initState (some 3)
      (Code.notFound, "book not found: book not found") rfl, ?_⟩
  have := rest_status_mapping.2.2.2.2.2.2.2 initState (some 3)
    (Code.notFound, "book not found: book not found") rfl
  simpa using this

/-! C1: borrowing an available book. -/

/-- C1 counterexample: with the book available but the requesting user
absent, the borrow-record INSERT violates the borrows.user_id foreign key
of the schema, so BorrowBook fails although the availability flag was
true. -/
theorem borrow_available_counterexample :
    (findBook ⟨[], [⟨0, "t", "a", "i", true⟩], [], 0, 1, 0⟩ 0).map BookRow.available
        = some true ∧
    (LibraryService.BorrowBook ⟨[], [⟨0, "t", "a", "i", true⟩], [], 0, 1, 0⟩
        ⟨some 5, some 0⟩ 0 noFaults).res
      = .error (Code.internal,
          "failed to borrow book: failed to create borrow record: violates foreign key constraint") :=
  ⟨rfl, rfl⟩

/-- Availability updates do not change which book ids occur. -/
theorem any_id_updateBookAvail (st : DBState) (n : Nat) (v : Bool) (m : Nat) :
    ((updateBookAvail st n v).books.any fun x => x.id == m)
      = (st.books.any fun x => x.id == m) := by
  unfold updateBookAvail
  rw [List.any_map]
  congr 1
  funext x
  by_cases h : x.id = n <;> simp [h]

/-- C1 amended: a borrow request on an available book by an existing user
succeeds: it returns the id of a newly inserted open borrow record whose
due date is the borrow time plus 14 days, and an immediately following
GetBook shows the book with available = false. -/
theorem borrow_available_succeeds (st : DBState) (u b now : Nat) (bk : BookRow)
    (hbk : findBook st b = some bk) (hav : bk.available = true)
    (hu : (st.users.any fun x => x.id == u) = true) :
    (LibraryService.BorrowBook st ⟨some u, some b⟩ now noFaults).res
        = .ok ⟨st.nextBorrowId, addDays now 14⟩ ∧
    (∃ br ∈ (LibraryService.BorrowBook st ⟨some u, some b⟩ now noFaults).st.borrows,
        br.id = st.nextBorrowId ∧ br.userId = u ∧ br.bookId = b ∧
        br.dueDate = addDays now 14 ∧ br.returnDate = none) ∧
    (LibraryService.GetBook
        (LibraryService.BorrowBook st ⟨some u, some b⟩ now noFaults).st (some b)).res
      = .ok { bk with available := false } := by
  have hbkid : (bk.id == b) = true := by
    have := List.find?_some hbk
    simpa using this
  have hanyb : (st.books.any fun x => x.id == b) = true := by
    rw [List.any_eq_true]
    exact ⟨bk, List.mem_of_find?_eq_some hbk, hbkid⟩
  have hub : ((updateBookAvail st b false).books.any fun x => x.id == b) = true := by
    rw [any_id_updateBookAvail]; exact hanyb
  have hfind2 : findBook (updateBookAvail st b false) b
      = some { bk with available := false } := by
    unfold findBook updateBookAvail
    rw [List.find?_map]
    have hpred : ((fun x : BookRow => x.id == b) ∘
        (fun x : BookRow => if x.id == b then { x with available := false } else x))
        = fun x : BookRow => x.id == b := by
      funext x
      by_cases h : x.id = b <;> simp [h]
    rw [hpred]
    have hfb : st.books.find? (fun x => x.id == b) = some bk := hbk
    rw [hfb]
    have hidb : bk.id = b := by simpa using hbkid
    simp [hidb]
  have hins : insertBorrow (updateBookAvail st b false) u b (addDays now 14)
      = some (st.nextBorrowId, { st with
          books := st.books.map
            (fun x => if x.id == b then { x with available := false } else x),
          borrows := st.borrows ++ [⟨st.nextBorrowId, u, b, addDays now 14, none⟩],
          nextBorrowId := st.nextBorrowId + 1 }) := by
    unfold insertBorrow
    have hc : (((updateBookAvail st b false).users.any fun x => x.id == u)
        && ((updateBookAvail st b false).books.any fun x => x.id == b)) = true := by
      rw [Bool.and_eq_true]
      exact ⟨hu, hub⟩
    rw [if_pos hc]
    rfl
  have hrepo : BookRepository.BorrowBook st u b (addDays now 14) noFaults
      = ⟨.ok st.nextBorrowId, { st with
          books := st.books.map
            (fun x => if x.id == b then { x with available := false } else x),
          borrows := st.borrows ++ [⟨st.nextBorrowId, u, b, addDays now 14, none⟩],
          nextBorrowId := st.nextBorrowId + 1 }, 0⟩ := by
    simp only [BookRepository.BorrowBook, noFaults, hbk, hav, Bool.not_true,
      Bool.false_eq_true, if_false, hins]
  have hsvc : LibraryService.BorrowBook st ⟨some u, some b⟩ now noFaults
      = ⟨.ok ⟨st.nextBorrowId, addDays now 14⟩, { st with
          books := st.books.map
            (fun x => if x.id == b then { x with available := false } else x),
          borrows := st.borrows ++ [⟨st.nextBorrowId, u, b, addDays now 14, none⟩],
          nextBorrowId := st.nextBorrowId + 1 }⟩ := by
    simp only [LibraryService.BorrowBook, hrepo]
  have hfind3 : findBook { st with
      books := st.books.map
        (fun x => if x.id == b then { x with available := false } else x),
      borrows := st.borrows ++ [⟨st.nextBorrowId, u, b, addDays now 14, none⟩],
      nextBorrowId := st.nextBorrowId + 1 } b
      = some { bk with available := false } := hfind2
  refine ⟨?_, ?_, ?_⟩
  · rw [hsvc]
  · rw [hsvc]
    exact ⟨⟨st.nextBorrowId, u, b, addDays now 14, none⟩,
      List.mem_append_right _ (List.mem_singleton.mpr rfl), rfl, rfl, rfl, rfl, rfl⟩
  · rw [hsvc]
    simp only [LibraryService.GetBook, BookRepository.GetByID, hfind3]

/-- C1 amended witness: a concrete user borrowing a concrete available
book. -/
theorem borrow_available_succeeds_witness :
    (LibraryService.BorrowBook ⟨[⟨5, "Ann", "a@b.co", ⟨"pw"⟩⟩],
        [⟨0, "t", "a", "i", true⟩], [], 6, 1, 0⟩ ⟨some 5, some 0⟩ 100 noFaults).res
        = .ok ⟨0, addDays 100 14⟩ ∧
    (∃ br ∈ (LibraryService.BorrowBook ⟨[⟨5, "Ann", "a@b.co", ⟨"pw"⟩⟩],
        [⟨0, "t", "a", "i", true⟩], [], 6, 1, 0⟩ ⟨some 5, some 0⟩ 100 noFaults).st.borrows,
        br.id = (0 : Nat) ∧ br.userId = (5 : Nat) ∧ br.bookId = (0 : Nat) ∧
        br.dueDate = addDays 100 14 ∧ br.returnDate = none) ∧
    (LibraryService.GetBook
        (LibraryService.BorrowBook ⟨[⟨5, "Ann", "a@b.co", ⟨"pw"⟩⟩],
          [⟨0, "t", "a", "i", true⟩], [], 6, 1, 0⟩ ⟨some 5, some 0⟩ 100 noFaults).st
        (some 0)).res
      = .ok ⟨0, "t", "a", "i", false⟩ :=
  borrow_available_succeeds ⟨[⟨5, "Ann", "a@b.co", ⟨"pw"⟩⟩],
    [⟨0, "t", "a", "i", true⟩], [], 6, 1, 0⟩ 5 0 100 ⟨0, "t", "a", "i", true⟩
    rfl rfl rfl

/-! C2: the availability invariant over sequential façade runs. -/

/-- C2 counterexample: the façade's CreateBook passes the request's
available flag through, so creating a book with available = false reaches
a state (one operation from the empty database) whose book has no open
borrow record yet a false availability flag. -/
theorem availInv_counterexample :
    ¬ AvailInv (runOps [Op.createBook ⟨some ⟨"t", "a", "i", false⟩⟩]) := by
  decide

/-- Membership in the open-borrow list of a book. -/
theorem mem_openBorrowsFor {st : DBState} {n : Nat} {b : BorrowRow} :
    b ∈ openBorrowsFor st n ↔ b ∈ st.borrows ∧ b.bookId = n ∧ b.returnDate = none := by
  unfold openBorrowsFor
  rw [List.mem_filter]
  simp

/-- The strengthened invariant yields the spec's availability invariant. -/
theorem availInv_of_strongInv {st : DBState} (h : StrongInv st) : AvailInv st := by
  intro bk hbk
  have hb := h.1 bk hbk
  unfold BookOk at hb
  by_cases hav : bk.available = true
  · rw [if_pos hav] at hb
    constructor
    · intro hfalse; rw [hav] at hfalse; cases hfalse
    · rintro ⟨b, hmem, hbid, hret⟩
      have hin : b ∈ openBorrowsFor st bk.id := mem_openBorrowsFor.mpr ⟨hmem, hbid, hret⟩
      rw [hb] at hin
      cases hin
  · rw [if_neg hav] at hb
    have havf : bk.available = false := by simpa using hav
    constructor
    · intro _
      obtain ⟨x, hx⟩ := List.length_eq_one.mp hb
      have hmem : x ∈ openBorrowsFor st bk.id := by
        rw [hx]; exact List.mem_cons_self x []
      obtain ⟨hm, hbid, hret⟩ := mem_openBorrowsFor.mp hmem
      exact ⟨x, hm, hbid, hret⟩
    · intro _; exact havf

/-- StrongInv only depends on books, borrows and the two id counters. -/
theorem strongInv_congr {st st' : DBState} (h : StrongInv st)
    (hbooks : st'.books = st.books) (hborrows : st'.borrows = st.borrows)
    (hnbk : st'.nextBookId = st.nextBookId)
    (hnbr : st'.nextBorrowId = st.nextBorrowId) : StrongInv st' := by
  obtain ⟨hok, hwf⟩ := h
  constructor
  · intro bk hbk
    rw [hbooks] at hbk
    have hthis := hok bk hbk
    unfold BookOk openBorrowsFor at hthis ⊢
    rw [hborrows]
    exact hthis
  · unfold WF at hwf ⊢
    rw [hbooks, hborrows, hnbk, hnbr]
    exact hwf

/-- The bootstrapped empty database satisfies the strengthened invariant. -/
theorem strongInv_init : StrongInv initState := by
  constructor
  · intro bk hbk; cases hbk
  · refine ⟨?_, ?_, ?_, ?_, ?_⟩ <;> simp [initState]

/-- RegisterUser only ever touches the users table and its id counter. -/
theorem registerUser_untouched (st : DBState) (req : RegisterUserRequest) :
    (LibraryService.RegisterUser st req).st.books = st.books ∧
    (LibraryService.RegisterUser st req).st.borrows = st.borrows ∧
    (LibraryService.RegisterUser st req).st.nextBookId = st.nextBookId ∧
    (LibraryService.RegisterUser st req).st.nextBorrowId = st.nextBorrowId := by
  by_cases h₁ : (req.name == "" || req.email == "" || req.password == "") = true
  · simp [LibraryService.RegisterUser, h₁]
  · by_cases h₂ : emailRegexMatch req.email = true
    · by_cases h₃ : req.password.utf8ByteSize < 8
      · simp [LibraryService.RegisterUser, h₁, h₂, h₃]
      · by_cases h₄ : (st.users.any fun x => x.email == req.email) = true
        · simp [LibraryService.RegisterUser, UserRepository.Create, h₁, h₂, h₃, h₄]
        · simp [LibraryService.RegisterUser, UserRepository.Create, h₁, h₂, h₃, h₄]
    · simp [LibraryService.RegisterUser, h₁, h₂]

/-- LoginUser never changes the state. -/
theorem loginUser_st (st : DBState) (req : LoginUserRequest) :
    (LibraryService.LoginUser st req).st = st := by
  unfold LibraryService.LoginUser
  repeat' split
  all_goals rfl

/-- GetBook never changes the state. -/
theorem getBook_st (st : DBState) (id : ReqId) :
    (LibraryService.GetBook st id).st = st := by
  unfold LibraryService.GetBook
  repeat' split
  all_goals rfl

/-- ListBooks never changes the state. -/
theorem listBooks_st (st : DBState) (ps : Int) :
    (LibraryService.ListBooks st ps).st = st := rfl

/-- CheckBookAvailability never changes the state. -/
theorem checkAvail_st (st : DBState) (id : ReqId) :
    (LibraryService.CheckBookAvailability st id).st = st := by
  unfold LibraryService.CheckBookAvailability
  repeat' split
  all_goals rfl

/-- The two possible final states of CreateBook: unchanged, or the request
book appended with the fresh id. -/
theorem createBook_state (st : DBState) (req : CreateBookRequest) :
    (LibraryService.CreateBook st req).st = st ∨
    ∃ b, req.book = some b ∧
      (LibraryService.CreateBook st req).st
        = { st with
            books := st.books ++ [⟨st.nextBookId, b.title, b.author, b.isbn, b.available⟩],
            nextBookId := st.nextBookId + 1 } := by
  cases hreq : req.book with
  | none => left; simp [LibraryService.CreateBook, hreq]
  | some b =>
    by_cases ht : (b.title == "" || b.author == "") = true
    · left; simp [LibraryService.CreateBook, hreq, ht]
    · by_cases hdup : (st.books.any fun x => x.isbn == b.isbn) = true
      · left; simp [LibraryService.CreateBook, BookRepository.Create, hreq, ht, hdup]
      · right
        refine ⟨b, rfl, ?_⟩
        simp [LibraryService.CreateBook, BookRepository.Create, hreq, ht, hdup]

/-- Availability updates preserve the list of book ids. -/
theorem updateBookAvail_map_id (st : DBState) (n : Nat) (v : Bool) :
    (updateBookAvail st n v).books.map BookRow.id = st.books.map BookRow.id := by
  unfold updateBookAvail
  rw [List.map_map]
  apply List.map_congr_left
  intro x _
  by_cases h : x.id = n <;> simp [h]

/-- Return stamping preserves the list of borrow ids. -/
theorem stampReturn_map_id (st : DBState) (bid now : Nat) :
    (stampReturn st bid now).borrows.map BorrowRow.id = st.borrows.map BorrowRow.id := by
  unfold stampReturn
  rw [List.map_map]
  apply List.map_congr_left
  intro x _
  by_cases h : x.id = bid <;> simp [h]

/-- Two books with the same id in a duplicate-free table coincide. -/
theorem book_eq_of_id {st : DBState} (h : (st.books.map BookRow.id).Nodup)
    {x y : BookRow} (hx : x ∈ st.books) (hy : y ∈ st.books) (hid : x.id = y.id) :
    x = y := List.inj_on_of_nodup_map h hx hy hid

/-- Two borrows with the same id in a duplicate-free table coincide. -/
theorem borrow_eq_of_id {st : DBState} (h : (st.borrows.map BorrowRow.id).Nodup)
    {x y : BorrowRow} (hx : x ∈ st.borrows) (hy : y ∈ st.borrows) (hid : x.id = y.id) :
    x = y := List.inj_on_of_nodup_map h hx hy hid

/-- Availability updates preserve well-formedness. -/
theorem wf_updateBookAvail (st : DBState) (n : Nat) (v : Bool) (h : WF st) :
    WF (updateBookAvail st n v) := by
  obtain ⟨hids, hnodup, hbrids, hbrnodup, href⟩ := h
  refine ⟨?_, ?_, hbrids, hbrnodup, ?_⟩
  · intro bk hbk
    show bk.id < st.nextBookId
    unfold updateBookAvail at hbk
    obtain ⟨x, hx, rfl⟩ := List.mem_map.mp hbk
    have hlt := hids x hx
    by_cases hxn : x.id = n <;> simp [hxn] <;> omega
  · rw [updateBookAvail_map_id]
    exact hnodup
  · intro br hbr
    obtain ⟨bk, hbk, hbkid⟩ := href br hbr
    unfold updateBookAvail
    by_cases hbn : bk.id = n
    · refine ⟨⟨bk.id, bk.title, bk.author, bk.isbn, v⟩, ?_, hbkid⟩
      apply List.mem_map.mpr
      exact ⟨bk, hbk, by simp [hbn]⟩
    · refine ⟨bk, ?_, hbkid⟩
      apply List.mem_map.mpr
      exact ⟨bk, hbk, by simp [hbn]⟩

/-- Return stamping preserves well-formedness. -/
theorem wf_stampReturn (st : DBState) (bid now : Nat) (h : WF st) :
    WF (stampReturn st bid now) := by
  obtain ⟨hids, hnodup, hbrids, hbrnodup, href⟩ := h
  refine ⟨hids, hnodup, ?_, ?_, ?_⟩
  · intro br hbr
    show br.id < st.nextBorrowId
    unfold stampReturn at hbr
    obtain ⟨x, hx, rfl⟩ := List.mem_map.mp hbr
    have hlt := hbrids x hx
    by_cases hxb : x.id = bid <;> simp [hxb] <;> omega
  · rw [stampReturn_map_id]
    exact hbrnodup
  · intro br hbr
    unfold stampReturn at hbr
    obtain ⟨x, hx, rfl⟩ := List.mem_map.mp hbr
    obtain ⟨bk, hbk, hbkid⟩ := href x hx
    refine ⟨bk, hbk, ?_⟩
    by_cases hxb : x.id = bid <;> simp [hxb, hbkid]

/-- An available book of an invariant state has no open borrows. -/
theorem openBorrowsFor_eq_nil_of_avail (st : DBState) (b : Nat) (bk : BookRow)
    (h : StrongInv st) (hbk : findBook st b = some bk) (hav : bk.available = true) :
    openBorrowsFor st b = [] := by
  have hmem := List.mem_of_find?_eq_some hbk
  have hid : bk.id = b := by simpa using List.find?_some hbk
  have hb := h.1 bk hmem
  unfold BookOk at hb
  rw [if_pos hav] at hb
  rw [← hid]
  exact hb

/-- Creating a book with available = true preserves the strengthened
invariant: the fresh id cannot be referenced by any existing borrow. -/
theorem strongInv_createBook (st : DBState) (t a i : String) (h : StrongInv st) :
    StrongInv { st with
      books := st.books ++ [⟨st.nextBookId, t, a, i, true⟩],
      nextBookId := st.nextBookId + 1 } := by
  obtain ⟨hok, hwf⟩ := h
  obtain ⟨hids, hnodup, hbrids, hbrnodup, href⟩ := hwf
  constructor
  · intro bk hbk
    rcases List.mem_append.mp hbk with hold | hnew
    · exact hok bk hold
    · rw [List.mem_singleton] at hnew
      subst hnew
      unfold BookOk
      rw [if_pos rfl]
      show openBorrowsFor st st.nextBookId = []
      rw [openBorrowsFor, List.filter_eq_nil_iff]
      intro br hbr hp
      obtain ⟨bk₂, hbk₂, hbk₂id⟩ := href br hbr
      have hlt := hids bk₂ hbk₂
      have hbid : br.bookId = st.nextBookId := by
        have := (Bool.and_eq_true _ _).mp hp
        simpa using this.1
      omega
  · refine ⟨?_, ?_, hbrids, hbrnodup, ?_⟩
    · intro bk hbk
      rcases List.mem_append.mp hbk with hold | hnew
      · exact Nat.lt_succ_of_lt (hids bk hold)
      · rw [List.mem_singleton] at hnew
        subst hnew
        exact Nat.lt_succ_self _
    · rw [List.map_append]
      refine List.Nodup.append hnodup (by simp) ?_
      intro x hx hy
      simp only [List.map_cons, List.map_nil, List.mem_singleton] at hy
      subst hy
      obtain ⟨bk, hbk, hid⟩ := List.mem_map.mp hx
      have hlt := hids bk hbk
      omega
    · intro br hbr
      obtain ⟨bk, hbk, hid⟩ := href br hbr
      exact ⟨bk, List.mem_append_left _ hbk, hid⟩

/-- Flipping a book with no open borrows to unavailable and back preserves
the strengthened invariant (the compensating path of BorrowBook). -/
theorem strongInv_avail_roundtrip (st : DBState) (n : Nat) (h : StrongInv st)
    (hopen : openBorrowsFor st n = []) :
    StrongInv (updateBookAvail (updateBookAvail st n false) n true) := by
  obtain ⟨hok, hwf⟩ := h
  constructor
  · intro bk hbk
    unfold updateBookAvail at hbk
    simp only [List.map_map, List.mem_map] at hbk
    obtain ⟨x, hx, rfl⟩ := hbk
    by_cases hxn : x.id = n
    · unfold BookOk
      simp only [Function.comp, hxn, beq_self_eq_true, if_true]
      show openBorrowsFor st n = []
      exact hopen
    · have hx' : ((fun bk : BookRow =>
          if bk.id == n then { bk with available := true } else bk) ∘
          (fun bk : BookRow =>
          if bk.id == n then { bk with available := false } else bk)) x = x := by
        simp [Function.comp, hxn]
      rw [hx']
      have hb := hok x hx
      unfold BookOk at hb ⊢
      exact hb
  · exact wf_updateBookAvail _ n true (wf_updateBookAvail st n false hwf)

/-- BookOk transfers along equality of the book's open-borrow list. -/
theorem bookOk_congr {st st' : DBState} {bk : BookRow}
    (hO : openBorrowsFor st' bk.id = openBorrowsFor st bk.id)
    (h : BookOk st bk) : BookOk st' bk := by
  unfold BookOk at h ⊢
  rw [hO]
  exact h

/-- A successful borrow preserves the strengthened invariant: the book,
previously without open borrows, gains exactly the new open record. -/
theorem strongInv_borrow_success (st : DBState) (u b now : Nat) (bk : BookRow)
    (h : StrongInv st) (hbk : findBook st b = some bk) (hav : bk.available = true) :
    StrongInv { st with
      books := st.books.map
        (fun x => if x.id == b then { x with available := false } else x),
      borrows := st.borrows ++ [⟨st.nextBorrowId, u, b, addDays now 14, none⟩],
      nextBorrowId := st.nextBorrowId + 1 } := by
  obtain ⟨hok, hwf⟩ := h
  obtain ⟨hids, hnodup, hbrids, hbrnodup, href⟩ := hwf
  have hbkmem : bk ∈ st.books := List.mem_of_find?_eq_some hbk
  have hbkid : bk.id = b := by simpa using List.find?_some hbk
  have hopen : openBorrowsFor st b = [] :=
    openBorrowsFor_eq_nil_of_avail st b bk
      ⟨hok, hids, hnodup, hbrids, hbrnodup, href⟩ hbk hav
  have hOBF : ∀ m, openBorrowsFor { st with
      books := st.books.map
        (fun x => if x.id == b then { x with available := false } else x),
      borrows := st.borrows ++ [⟨st.nextBorrowId, u, b, addDays now 14, none⟩],
      nextBorrowId := st.nextBorrowId + 1 } m
      = openBorrowsFor st m
        ++ (if b == m
            then [(⟨st.nextBorrowId, u, b, addDays now 14, none⟩ : BorrowRow)]
            else []) := by
    intro m
    show (st.borrows ++ [(⟨st.nextBorrowId, u, b, addDays now 14, none⟩ : BorrowRow)]).filter
        (fun x => x.bookId == m && x.returnDate == none) = _
    rw [List.filter_append]
    congr 1
    by_cases hbm : b = m <;>
      simp [List.filter_cons, List.filter_nil, hbm]
  constructor
  · intro x' hx'
    obtain ⟨x, hx, rfl⟩ := List.mem_map.mp hx'
    by_cases hxb : x.id = b
    · rw [if_pos (by simp [hxb])]
      unfold BookOk
      rw [if_neg (by simp)]
      have hidx : ({ x with available := false } : BookRow).id = b := hxb
      rw [hidx, hOBF b, hopen]
      simp
    · rw [if_neg (by simp [hxb])]
      apply bookOk_congr ?_ (hok x hx)
      rw [hOBF x.id, if_neg (by simp [Ne.symm hxb]), List.append_nil]
  · refine ⟨?_, ?_, ?_, ?_, ?_⟩
    · intro x' hx'
      show x'.id < st.nextBookId
      obtain ⟨x, hx, rfl⟩ := List.mem_map.mp hx'
      have hlt := hids x hx
      by_cases hxb : x.id = b <;> simp [hxb] <;> omega
    · show ((st.books.map fun x =>
          if x.id == b then { x with available := false } else x).map BookRow.id).Nodup
      rw [List.map_map]
      have hmapid : (BookRow.id ∘ fun x : BookRow =>
          if x.id == b then { x with available := false } else x) = BookRow.id := by
        funext x
        by_cases hxb : x.id = b <;> simp [hxb]
      rw [hmapid]
      exact hnodup
    · intro br hbr
      show br.id < st.nextBorrowId + 1
      rcases List.mem_append.mp hbr with hold | hnew
      · exact Nat.lt_succ_of_lt (hbrids br hold)
      · rw [List.mem_singleton] at hnew
        subst hnew
        exact Nat.lt_succ_self _
    · show ((st.borrows ++ [(⟨st.nextBorrowId, u, b, addDays now 14, none⟩ : BorrowRow)]).map
          BorrowRow.id).Nodup
      rw [List.map_append]
      refine List.Nodup.append hbrnodup (by simp) ?_
      intro a ha ha2
      simp only [List.map_cons, List.map_nil, List.mem_singleton] at ha2
      subst ha2
      obtain ⟨br, hbrm, hbid⟩ := List.mem_map.mp ha
      have hlt := hbrids br hbrm
      omega
    · intro br hbr
      rcases List.mem_append.mp hbr with hold | hnew
      · obtain ⟨bk₂, hbk₂, hid₂⟩ := href br hold
        by_cases hb2 : bk₂.id = b
        · exact ⟨⟨bk₂.id, bk₂.title, bk₂.author, bk₂.isbn, false⟩,
            List.mem_map.mpr ⟨bk₂, hbk₂, by simp [hb2]⟩, hid₂⟩
        · exact ⟨bk₂, List.mem_map.mpr ⟨bk₂, hbk₂, by simp [hb2]⟩, hid₂⟩
      · rw [List.mem_singleton] at hnew
        subst hnew
        exact ⟨⟨bk.id, bk.title, bk.author, bk.isbn, false⟩,
          List.mem_map.mpr ⟨bk, hbkmem, by simp [hbkid]⟩, hbkid⟩

/-- A return under the no-double-return side condition preserves the
strengthened invariant: the stamped borrow was the unique open record of
its book, which becomes available with no open records left. -/
theorem strongInv_return (st : DBState) (bid now : Nat) (br₀ : BorrowRow)
    (h : StrongInv st) (hfb : findBorrow st bid = some br₀)
    (hguard : ∀ x ∈ st.borrows, x.id = bid → x.returnDate = none) :
    StrongInv (stampReturn (updateBookAvail st br₀.bookId true) bid now) := by
  obtain ⟨hok, hwf⟩ := h
  obtain ⟨hids, hnodup, hbrids, hbrnodup, href⟩ := hwf
  have hmem : br₀ ∈ st.borrows := List.mem_of_find?_eq_some hfb
  have hid0 : br₀.id = bid := by simpa using List.find?_some hfb
  have hopen0 : br₀.returnDate = none := hguard br₀ hmem hid0
  obtain ⟨bkB, hbkB, hbkBid⟩ := href br₀ hmem
  have hin : br₀ ∈ openBorrowsFor st br₀.bookId :=
    mem_openBorrowsFor.mpr ⟨hmem, rfl, hopen0⟩
  have hBok := hok bkB hbkB
  unfold BookOk at hBok
  have havB : bkB.available = false := by
    by_cases hav : bkB.available = true
    · rw [if_pos hav, hbkBid] at hBok
      rw [hBok] at hin
      cases hin
    · simpa using hav
  rw [if_neg (by simp [havB]), hbkBid] at hBok
  have hsing : openBorrowsFor st br₀.bookId = [br₀] := by
    obtain ⟨a, ha⟩ := List.length_eq_one.mp hBok
    rw [ha] at hin
    rw [List.mem_singleton] at hin
    rw [ha, hin]
  have huniq : ∀ x ∈ st.borrows, x.id = bid → x = br₀ := by
    intro x hx hxid
    exact borrow_eq_of_id hbrnodup hx hmem (hxid.trans hid0.symm)
  have hfact1 : openBorrowsFor
      (stampReturn (updateBookAvail st br₀.bookId true) bid now) br₀.bookId = [] := by
    show ((updateBookAvail st br₀.bookId true).borrows.map
        (fun x => if x.id == bid then { x with returnDate := some now } else x)).filter
        (fun x => x.bookId == br₀.bookId && x.returnDate == none) = []
    rw [List.filter_map, List.map_eq_nil_iff, List.filter_eq_nil_iff]
    intro x hx hp
    have hx' : x ∈ st.borrows := hx
    by_cases hxid : x.id = bid
    · simp [Function.comp, hxid] at hp
    · simp only [Function.comp, hxid] at hp
      rw [if_neg (by simp [hxid])] at hp
      have hxmem : x ∈ openBorrowsFor st br₀.bookId := by
        rw [mem_openBorrowsFor]
        have hp' := (Bool.and_eq_true _ _).mp hp
        exact ⟨hx', by simpa using hp'.1, by simpa using hp'.2⟩
      rw [hsing, List.mem_singleton] at hxmem
      subst hxmem
      exact hxid hid0
  have hfact2 : ∀ m, m ≠ br₀.bookId →
      openBorrowsFor (stampReturn (updateBookAvail st br₀.bookId true) bid now) m
        = openBorrowsFor st m := by
    intro m hm
    show ((updateBookAvail st br₀.bookId true).borrows.map
        (fun x => if x.id == bid then { x with returnDate := some now } else x)).filter
        (fun x => x.bookId == m && x.returnDate == none)
      = st.borrows.filter (fun x => x.bookId == m && x.returnDate == none)
    rw [List.filter_map]
    have hcong : st.borrows.filter ((fun x : BorrowRow => x.bookId == m && x.returnDate == none) ∘
        (fun x => if x.id == bid then { x with returnDate := some now } else x))
        = st.borrows.filter (fun x => x.bookId == m && x.returnDate == none) := by
      apply List.filter_congr
      intro x hx
      by_cases hxid : x.id = bid
      · have hxeq : x = br₀ := huniq x hx hxid
        subst hxeq
        have hBm : (x.bookId == m) = false := by
          simp
          intro hc
          exact hm hc.symm
        simp [Function.comp, hxid, hBm]
      · simp [Function.comp, hxid]
    rw [show (updateBookAvail st br₀.bookId true).borrows = st.borrows from rfl, hcong]
    have hpt : ∀ x ∈ st.borrows.filter (fun x => x.bookId == m && x.returnDate == none),
        (fun x : BorrowRow => if x.id == bid then { x with returnDate := some now } else x) x
          = id x := by
      intro x hx
      obtain ⟨hxm, hxp⟩ := List.mem_filter.mp hx
      by_cases hxid : x.id = bid
      · exfalso
        have hxeq := huniq x hxm hxid
        subst hxeq
        have := (Bool.and_eq_true _ _).mp hxp
        have hbm : x.bookId = m := by simpa using this.1
        exact hm hbm.symm
      · simp [hxid]
    rw [List.map_congr_left hpt, List.map_id]
  constructor
  · intro x' hx'
    have hx'' : x' ∈ (updateBookAvail st br₀.bookId true).books := hx'
    unfold updateBookAvail at hx''
    obtain ⟨x, hx, rfl⟩ := List.mem_map.mp hx''
    by_cases hxB : x.id = br₀.bookId
    · rw [if_pos (by simp [hxB])]
      unfold BookOk
      rw [if_pos rfl]
      have hidx : ({ x with available := true } : BookRow).id = br₀.bookId := hxB
      rw [hidx]
      exact hfact1
    · rw [if_neg (by simp [hxB])]
      exact bookOk_congr (hfact2 x.id hxB) (hok x hx)
  · exact wf_stampReturn _ bid now
      (wf_updateBookAvail st br₀.bookId true ⟨hids, hnodup, hbrids, hbrnodup, href⟩)

/-- The three possible final states of a fault-free façade BorrowBook:
unchanged, flag flipped and restored (insert hit the user foreign key), or
flag flipped with the new open borrow appended. -/
theorem borrowBook_state (st : DBState) (req : BorrowBookRequest) (now : Nat) :
    (LibraryService.BorrowBook st req now noFaults).st = st ∨
    (∃ b bk, req.bookId = some b ∧ findBook st b = some bk ∧ bk.available = true ∧
      (LibraryService.BorrowBook st req now noFaults).st
        = updateBookAvail (updateBookAvail st b false) b true) ∨
    (∃ u b bk, req.userId = some u ∧ req.bookId = some b ∧
      findBook st b = some bk ∧ bk.available = true ∧
      (LibraryService.BorrowBook st req now noFaults).st
        = { st with
            books := st.books.map
              (fun x => if x.id == b then { x with available := false } else x),
            borrows := st.borrows ++ [⟨st.nextBorrowId, u, b, addDays now 14, none⟩],
            nextBorrowId := st.nextBorrowId + 1 }) := by
  cases hu : req.userId with
  | none => left; simp [LibraryService.BorrowBook, hu]
  | some u =>
  cases hb : req.bookId with
  | none => left; simp [LibraryService.BorrowBook, hu, hb]
  | some b =>
  cases hfb : findBook st b with
  | none =>
    left
    simp [LibraryService.BorrowBook, BookRepository.BorrowBook, noFaults, hu, hb, hfb]
  | some bk =>
  by_cases hav : bk.available = true
  · by_cases hc : (((updateBookAvail st b false).users.any fun x => x.id == u)
        && ((updateBookAvail st b false).books.any fun x => x.id == b)) = true
    · right; right
      refine ⟨u, b, bk, rfl, rfl, hfb, hav, ?_⟩
      have hins : insertBorrow (updateBookAvail st b false) u b (addDays now 14)
          = some (st.nextBorrowId, { st with
              books := st.books.map
                (fun x => if x.id == b then { x with available := false } else x),
              borrows := st.borrows ++ [⟨st.nextBorrowId, u, b, addDays now 14, none⟩],
              nextBorrowId := st.nextBorrowId + 1 }) := by
        unfold insertBorrow
        rw [if_pos hc]
        rfl
      simp only [LibraryService.BorrowBook, BookRepository.BorrowBook, noFaults, hu, hb,
        hfb, hav, Bool.not_true, Bool.false_eq_true, if_false, hins]
    · right; left
      refine ⟨b, bk, rfl, hfb, hav, ?_⟩
      have hins : insertBorrow (updateBookAvail st b false) u b (addDays now 14)
          = none := by
        unfold insertBorrow
        rw [if_neg hc]
      simp only [LibraryService.BorrowBook, BookRepository.BorrowBook, noFaults, hu, hb,
        hfb, hav, Bool.not_true, Bool.false_eq_true, if_false, hins]
  · have havf : bk.available = false := by simpa using hav
    left
    simp [LibraryService.BorrowBook, BookRepository.BorrowBook, noFaults, hu, hb, hfb, havf]

/-- The two possible final states of a fault-free façade ReturnBook:
unchanged, or the looked-up borrow's book made available and the borrow
stamped. -/
theorem returnBook_state (st : DBState) (bid : ReqId) (now : Nat) :
    (LibraryService.ReturnBook st bid now noRetFaults).st = st ∨
    ∃ i br, bid = some i ∧ findBorrow st i = some br ∧
      (LibraryService.ReturnBook st bid now noRetFaults).st
        = stampReturn (updateBookAvail st br.bookId true) i now := by
  cases hb : bid with
  | none => left; simp [LibraryService.ReturnBook, hb]
  | some i =>
    cases hf : findBorrow st i with
    | none =>
      left
      simp [LibraryService.ReturnBook, BookRepository.ReturnBook, noRetFaults, hf]
    | some br =>
      right
      refine ⟨i, br, rfl, hf, ?_⟩
      simp [LibraryService.ReturnBook, BookRepository.ReturnBook, noRetFaults, hf]

/-- Every guarded façade operation preserves the strengthened invariant. -/
theorem strongInv_applyOp (st : DBState) (op : Op) (h : StrongInv st)
    (hok : OkOp st op) : StrongInv (applyOp st op) := by
  cases op with
  | registerUser req =>
    obtain ⟨h1, h2, h3, h4⟩ := registerUser_untouched st req
    exact strongInv_congr h h1 h2 h3 h4
  | loginUser req =>
    show StrongInv (LibraryService.LoginUser st req).st
    rw [loginUser_st]
    exact h
  | createBook req =>
    show StrongInv (LibraryService.CreateBook st req).st
    rcases createBook_state st req with heq | ⟨bs, hreq, heq⟩
    · rw [heq]; exact h
    · have hava : bs.available = true := hok bs hreq
      rw [heq, hava]
      exact strongInv_createBook st bs.title bs.author bs.isbn h
  | getBook id =>
    show StrongInv (LibraryService.GetBook st id).st
    rw [getBook_st]
    exact h
  | listBooks ps =>
    show StrongInv (LibraryService.ListBooks st ps).st
    rw [listBooks_st]
    exact h
  | borrowBook req now =>
    show StrongInv (LibraryService.BorrowBook st req now noFaults).st
    rcases borrowBook_state st req now with heq | ⟨b, bk, _, hfb, hav, heq⟩
      | ⟨u, b, bk, _, _, hfb, hav, heq⟩
    · rw [heq]; exact h
    · rw [heq]
      exact strongInv_avail_roundtrip st b h
        (openBorrowsFor_eq_nil_of_avail st b bk h hfb hav)
    · rw [heq]
      exact strongInv_borrow_success st u b now bk h hfb hav
  | returnBook bid now =>
    show StrongInv (LibraryService.ReturnBook st bid now noRetFaults).st
    rcases returnBook_state st bid now with heq | ⟨i, br, hbid, hfb, heq⟩
    · rw [heq]; exact h
    · rw [heq]
      exact strongInv_return st i now br h hfb (hok i hbid)
  | checkAvail id =>
    show StrongInv (LibraryService.CheckBookAvailability st id).st
    rw [checkAvail_st]
    exact h

/-- C2 amended: over sequential fault-free façade runs from the empty
database in which every CreateBook request carries available = true and
ReturnBook is only invoked on borrows whose return timestamp is still
null, every reachable state satisfies the availability invariant: a
book's flag is false exactly when an open borrow record references it.
(Unrestricted, the invariant fails: CreateBook forwards a false flag
verbatim, and ReturnBook on an already-returned borrow frees a book that
still has an open borrow.) -/
theorem availInv_reachable (st : DBState) (h : ReachableG st) : AvailInv st := by
  have hs : StrongInv st := by
    induction h with
    | init => exact strongInv_init
    | step op _ hok ih => exact strongInv_applyOp _ op ih hok
  exact availInv_of_strongInv hs

/-- C2 amended witness: the invariant at the initial reachable state. -/
theorem availInv_reachable_witness : AvailInv initState :=
  availInv_reachable initState ReachableG.init

end LibraryMgmt
